import Mathlib

/-
  Verification development for the domchecker program (src/domchecker.py).

  The repository is a single-file asynchronous domain liveness checker.
  The network is modelled by an explicit environment: a function from the
  full URL string to either a transport-level failure (DNS, connect,
  TLS, header timeout — everything that makes the GET raise before the
  body loop) or an HttpResponse value carrying the status code, the
  elapsed time to headers, and the sequence of outcomes of the successive
  body reads.  With that oracle fixed, every function of the program is a
  pure, total Lean function translated line by line from the source.
-/

deriving instance DecidableEq for Except

namespace DomChecker

/-- Outcome of one `resp.content.read(...)` call inside the body loop of
get_with_ttfb: either the asyncio.wait_for timeout fires, or a chunk of
`len` bytes arrives at elapsed time `t` (a zero-length chunk is the EOF
marker returned by aiohttp when the stream is exhausted). -/
inductive FetchStep where
  | timeout : FetchStep
  | chunk (len : Nat) (t : ℚ) : FetchStep
deriving DecidableEq, Repr

/-- The observable part of one HTTP response, as consumed by
get_with_ttfb: the status code, the wall-clock time at which the headers
were fully received, and the stream of body-read outcomes.  An exhausted
`reads` list behaves like EOF (every further read returns an empty
chunk), matching aiohttp stream semantics. -/
structure HttpResponse where
  status : Nat
  elapsedHeaders : ℚ
  reads : List FetchStep
deriving DecidableEq, Repr

/-- Embedding of Python round(x, 3), used on the timing measurements.
The spec notes that the exact rounding mode is not behaviorally
significant; round-half-up on rationals is used here. -/
def round3 (x : ℚ) : ℚ := (round (x * 1000) : ℤ) / 1000

/-- The body-reading while loop of get_with_ttfb (lines 31-46 of
src/domchecker.py): while fewer than `want` bytes have been read, issue
one more read; a wait_for timeout raises, an empty chunk (or EOF) breaks
out of the loop, and a non-empty chunk records the time of the first
body byte and adds its length to the running count.  Returns the final
first_byte_elapsed value. -/
def readBody (want : Nat) (got : Nat) (firstByte : Option ℚ) :
    List FetchStep → Except String (Option ℚ)
  | [] => Except.ok firstByte
  | FetchStep.timeout :: _ =>
    if got < want then Except.error "TTFB/body timeout"
    else Except.ok firstByte
  | FetchStep.chunk len t :: rest =>
    if got < want then
      if len = 0 then Except.ok firstByte
      else
        readBody want (got + len)
          (if firstByte.isSome then firstByte else some t) rest
    else Except.ok firstByte

/-- Embedding of get_with_ttfb (lines 18-49 of src/domchecker.py).  The
argument `resp` is what the environment yields for the requested URL:
`Except.error` for any failure raised before the body loop (connect
timeout, DNS, TLS, header timeout), `Except.ok` for a received response.
A 204 status returns immediately with time_to_first_byte = 0 and no body
read; otherwise the body loop runs, and if no body byte was observed
while read_min_bytes > 0 the call fails with the NoData timeout.  On
success it returns (status, time_to_headers, time_to_first_byte). -/
def get_with_ttfb (resp : Except String HttpResponse)
    (read_min_bytes : Nat) : Except String (Nat × ℚ × ℚ) :=
  match resp with
  | Except.error e => Except.error e
  | Except.ok r =>
    if r.status = 204 then
      Except.ok (r.status, round3 r.elapsedHeaders, 0)
    else
      match readBody read_min_bytes 0 none r.reads with
      | Except.error e => Except.error e
      | Except.ok firstByte =>
        if firstByte = none ∧ 0 < read_min_bytes then
          Except.error "No body byte received in time"
        else
          Except.ok (r.status, round3 r.elapsedHeaders,
                     round3 (firstByte.getD 0))

/-- The network environment: what one GET against a given URL yields. -/
def Env : Type := String → Except String HttpResponse

/-- The scheme list of probe (line 53 of src/domchecker.py). -/
def schemes : List String := ["https://", "http://"]

/-- The for loop of probe (lines 54-62): for each scheme build the URL,
call get_with_ttfb, and on normal completion return the domain together
with the 2xx test of the status; on any exception fall through to the
next scheme.  When the scheme list is exhausted, return (domain, false).
-/
def probeLoop (env : Env) (read_min_bytes : Nat) (domain : String) :
    List String → String × Bool
  | [] => (domain, false)
  | scheme :: rest =>
    match get_with_ttfb (env (scheme ++ domain)) read_min_bytes with
    | Except.ok (status, _, _) =>
      (domain, decide (200 ≤ status ∧ status < 300))
    | Except.error _ => probeLoop env read_min_bytes domain rest

/-- Embedding of probe (lines 51-62 of src/domchecker.py). -/
def probe (env : Env) (read_min_bytes : Nat) (domain : String) :
    String × Bool :=
  probeLoop env read_min_bytes domain schemes

/-- A fetch attempt that raised: the result of get_with_ttfb is an
exception (any transport, TLS, DNS, timeout or NoData failure). -/
def fetchFails (r : Except String (Nat × ℚ × ℚ)) : Prop :=
  ∃ e, r = Except.error e

/-- A fetch attempt that completed with a 2xx status code. -/
def ok2xx (r : Except String (Nat × ℚ × ℚ)) : Prop :=
  ∃ s th tb, r = Except.ok (s, th, tb) ∧ 200 ≤ s ∧ s < 300

/-- Python str.strip() with no argument: remove whitespace from both
ends of the string. -/
def pystrip (s : String) : String :=
  ⟨((s.data.dropWhile Char.isWhitespace).reverse.dropWhile
      Char.isWhitespace).reverse⟩

/-- Line 140 of src/domchecker.py: strip every line of the input file. -/
def stripLines (lines : List String) : List String := lines.map pystrip

/-- Lines 140-141: strip every line and drop the empty ones. -/
def nonEmptyLines (lines : List String) : List String :=
  (stripLines lines).filter (fun d => d ≠ "")

/-- Line 143 of src/domchecker.py: the seen-set deduplication pass
`[d for d in dominios if not (d in seen or seen.add(d))]`, keeping a
line exactly when it has not been seen before. -/
def dedupFirst (seen : List String) : List String → List String
  | [] => []
  | d :: rest =>
    if d ∈ seen then dedupFirst seen rest
    else d :: dedupFirst (d :: seen) rest

/-- Lines 139-144 of src/domchecker.py: the list of domains that
main_async builds from the input file and later enqueues one by one
(lines 173-174 push exactly this list, in order). -/
def loadDomains (lines : List String) : List String :=
  dedupFirst [] (nonEmptyLines lines)

/-- First-occurrence deduplication stated independently of the source,
following the words of the spec: keep each line where it first appears
and remove every later duplicate of it. -/
def specUniqueFirst : List String → List String
  | [] => []
  | d :: rest => d :: (specUniqueFirst rest).filter (fun x => x ≠ d)

/-- The shared per-run mutable state seen by one worker: the pending
queue contents, the two counters of the counters dict (lines 114 and
117) and the activos_list of alive domains (line 119). -/
structure WState where
  queue : List String
  done : Nat
  alive : Nat
  activos : List String
deriving DecidableEq, Repr

/-- How one pass through the worker loop body ends: the worker returns,
or it goes back to the top of the while loop. -/
inductive WorkerOut where
  | exited (s : WState)
  | looped (s : WState)
deriving DecidableEq, Repr

/-- Embedding of one iteration of the worker loop (lines 100-125 of
src/domchecker.py).  The booleans are the observations the iteration
makes of its concurrent surroundings: stopAtTop is the stop_event test
at the loop top (line 101), popTimesOut tells whether the 0.2 s timed
queue.get raised TimeoutError (lines 104-108), and stopAfterPop is the
stop_event test made after a successful pop (line 110).  On the stop
after pop the popped domain is pushed back (appended at the queue tail,
as put_nowait does) and the worker exits; otherwise the domain is
probed, done is incremented, and on an alive result the alive counter
and the activos list are extended. -/
def workerStep (probeAlive : String → Bool)
    (stopAtTop popTimesOut stopAfterPop : Bool) (s : WState) : WorkerOut :=
  if stopAtTop then WorkerOut.exited s
  else if popTimesOut then
    if s.queue.isEmpty then WorkerOut.exited s else WorkerOut.looped s
  else
    match s.queue with
    | [] => WorkerOut.exited s
    | d :: rest =>
      if stopAfterPop then
        WorkerOut.exited { s with queue := rest ++ [d] }
      else
        let isAlive := probeAlive d
        WorkerOut.looped
          { queue := rest,
            done := s.done + 1,
            alive := s.alive + (if isAlive then 1 else 0),
            activos := s.activos ++ (if isAlive then [d] else []) }

/-- The value returned by main_async as a function of what it can
observe at return time: the early return 0 when the deduplicated input
is empty (lines 145-146 of src/domchecker.py), and otherwise line 197,
0 when the stop flag is unset and 130 when it is set. -/
def main_async_exit (total : Nat) (stopSet : Bool) : Nat :=
  if total = 0 then 0
  else if stopSet then 130 else 0

/-- Modelled from the spec words of the exit-code claim, for comparison
with main_async_exit: exit code 130 exactly when the run was terminated
via an interrupt signal before all domains were processed, else 0. -/
def claimed_exit_code (interrupted allProcessed : Bool) : Nat :=
  if interrupted && !allProcessed then 130 else 0

/-- Lines 147-149 of src/domchecker.py: per_request_delay = 0.0, and
when rps > 0, per_request_delay = max(0.0, concurrency / rps). -/
def per_request_delay (concurrency : Nat) (rps : ℚ) : ℚ :=
  if 0 < rps then max 0 ((concurrency : ℚ) / rps) else 0

end DomChecker

namespace DomChecker

lemma ok2xx_ok (s : Nat) (th tb : ℚ) :
    ok2xx (Except.ok (s, th, tb)) ↔ (200 ≤ s ∧ s < 300) := by
  constructor
  · rintro ⟨s2, th2, tb2, heq, h2, h3⟩
    obtain ⟨rfl, rfl, rfl⟩ : s = s2 ∧ th = th2 ∧ tb = tb2 := by
      simpa [Prod.ext_iff] using heq
    exact ⟨h2, h3⟩
  · rintro ⟨h2, h3⟩
    exact ⟨s, th, tb, rfl, h2, h3⟩

lemma ok2xx_error (e : String) : ¬ ok2xx (Except.error e) := by
  rintro ⟨s, th, tb, heq, -, -⟩
  exact Except.noConfusion heq

lemma fetchFails_error (e : String) :
    fetchFails (Except.error (α := Nat × ℚ × ℚ) e) := ⟨e, rfl⟩

lemma not_fetchFails_ok (v : Nat × ℚ × ℚ) : ¬ fetchFails (Except.ok v) := by
  rintro ⟨e, heq⟩
  exact Except.noConfusion heq

lemma round3_zero : round3 0 = 0 := by
  simp [round3]

/-- When got < want already fails, the body loop returns at once with
the current first-byte value, whatever the stream holds. -/
lemma readBody_not_lt (want got : Nat) (fb : Option ℚ)
    (reads : List FetchStep) (h : ¬ got < want) :
    readBody want got fb reads = Except.ok fb := by
  cases reads with
  | nil => rfl
  | cons head rest => cases head <;> simp [readBody, h]

/-- Claim C4: probe never raises.  For every environment, configuration
and domain it returns a pair carrying the domain itself, and when both
scheme attempts raise it returns alive = false; every failure of the
Fetcher is absorbed inside probe. -/
theorem probe_never_raises (env : Env) (n : Nat) (d : String) :
    (probe env n d).1 = d ∧
    (∀ e1 e2, get_with_ttfb (env ("https://" ++ d)) n = Except.error e1 →
      get_with_ttfb (env ("http://" ++ d)) n = Except.error e2 →
      probe env n d = (d, false)) := by
  constructor
  · rcases h1 : get_with_ttfb (env ("https://" ++ d)) n with e1 | v1
    · rcases h2 : get_with_ttfb (env ("http://" ++ d)) n with e2 | v2
      · simp [probe, probeLoop, schemes, h1, h2]
      · obtain ⟨s, th, tb⟩ := v2
        simp [probe, probeLoop, schemes, h1, h2]
    · obtain ⟨s, th, tb⟩ := v1
      simp [probe, probeLoop, schemes, h1]
  · intro e1 e2 h1 h2
    simp [probe, probeLoop, schemes, h1, h2]

theorem probe_never_raises_witness :
    probe (fun _ => Except.error "connection refused") 64 "x.com" =
      ("x.com", false) :=
  (probe_never_raises (fun _ => Except.error "connection refused")
    64 "x.com").2 "connection refused" "connection refused" rfl rfl

/-- Claim C5: if min_bytes > 0 and the body stream ends (EOF, or an
immediate empty chunk) before any body byte was received, get_with_ttfb
fails with the NoData timeout error instead of returning an outcome. -/
theorem get_with_ttfb_no_body_byte (r : HttpResponse) (n : Nat)
    (hn : 0 < n) (hs : r.status ≠ 204)
    (hend : r.reads = [] ∨ ∃ t rest, r.reads = FetchStep.chunk 0 t :: rest) :
    get_with_ttfb (Except.ok r) n =
      Except.error "No body byte received in time" := by
  have hrb : readBody n 0 none r.reads = Except.ok none := by
    rcases hend with h | ⟨t, rest, h⟩ <;> rw [h] <;> simp [readBody, hn]
  simp [get_with_ttfb, hs, hrb, hn]

theorem get_with_ttfb_no_body_byte_witness :
    get_with_ttfb (Except.ok ⟨200, 1, []⟩) 64 =
      Except.error "No body byte received in time" :=
  get_with_ttfb_no_body_byte ⟨200, 1, []⟩ 64 (by decide) (by decide)
    (Or.inl rfl)

/-- Claim C6: with min_body_bytes = 0 configured, a scheme attempt whose
response has a 2xx status and a zero-byte body completes without raising
and with no body read (the outcome does not depend on the stream), and
probe maps it to alive = true. -/
theorem alive_with_min_bytes_zero (env : Env) (d : String)
    (r : HttpResponse) (henv : env ("https://" ++ d) = Except.ok r)
    (h2 : 200 ≤ r.status) (h3 : r.status < 300) (_hb : r.reads = []) :
    get_with_ttfb (Except.ok r) 0 =
      Except.ok (r.status, round3 r.elapsedHeaders, 0) ∧
    (∀ reads2 : List FetchStep,
      get_with_ttfb (Except.ok ⟨r.status, r.elapsedHeaders, reads2⟩) 0 =
        get_with_ttfb (Except.ok r) 0) ∧
    probe env 0 d = (d, true) := by
  have hfetch : ∀ reads2 : List FetchStep,
      get_with_ttfb (Except.ok ⟨r.status, r.elapsedHeaders, reads2⟩) 0 =
        Except.ok (r.status, round3 r.elapsedHeaders, 0) := by
    intro reads2
    by_cases h204 : r.status = 204
    · simp [get_with_ttfb, h204]
    · have hrb := readBody_not_lt 0 0 none reads2 (by omega)
      simp [get_with_ttfb, h204, hrb, round3_zero]
  have hA : get_with_ttfb (Except.ok r) 0 =
      Except.ok (r.status, round3 r.elapsedHeaders, 0) := by
    have := hfetch r.reads
    simpa using this
  refine ⟨hA, fun reads2 => by rw [hfetch reads2, hA], ?_⟩
  have hok : get_with_ttfb (env ("https://" ++ d)) 0 =
      Except.ok (r.status, round3 r.elapsedHeaders, 0) := by
    rw [henv, hA]
  simp [probe, probeLoop, schemes, hok, h2, h3]

theorem alive_with_min_bytes_zero_witness :
    probe (fun _ => Except.ok ⟨200, 1, []⟩) 0 "x.com" = ("x.com", true) :=
  (alive_with_min_bytes_zero (fun _ => Except.ok ⟨200, 1, []⟩) "x.com"
    ⟨200, 1, []⟩ rfl (by decide) (by decide) rfl).2.2

/-- Claim C7: on a 204 status get_with_ttfb returns immediately with
time_to_first_byte = 0, whatever min_bytes is configured, and reads no
body: its outcome does not depend on the body stream at all. -/
theorem get_with_ttfb_204 (r : HttpResponse) (n : Nat)
    (h : r.status = 204) :
    get_with_ttfb (Except.ok r) n =
      Except.ok (204, round3 r.elapsedHeaders, 0) ∧
    (∀ reads2 : List FetchStep,
      get_with_ttfb (Except.ok ⟨r.status, r.elapsedHeaders, reads2⟩) n =
        get_with_ttfb (Except.ok r) n) := by
  constructor
  · simp [get_with_ttfb, h]
  · intro reads2
    simp [get_with_ttfb, h]

theorem get_with_ttfb_204_witness :
    get_with_ttfb (Except.ok ⟨204, 1, [FetchStep.timeout]⟩) 64 =
      Except.ok (204, round3 1, 0) :=
  (get_with_ttfb_204 ⟨204, 1, [FetchStep.timeout]⟩ 64 rfl).1

/-- Claim C9, counterexample: in a run with one domain in which the
interrupt arrived while the last probe was in flight, every domain was
processed and yet main_async returns 130, where the claimed rule (130
exactly when terminated before all domains were processed) gives 0. -/
theorem exit_code_counterexample :
    main_async_exit 1 true = 130 ∧ claimed_exit_code true true = 0 ∧
    main_async_exit 1 true ≠ claimed_exit_code true true := by
  decide

/-- Claim C9, amended: the exit code is 130 exactly when the stop flag
was set by an interrupt (and at least one domain was enqueued), whether
or not every domain ended up processed, and 0 exactly otherwise. -/
theorem exit_code_flag_only (total : Nat) (stopSet : Bool) :
    (main_async_exit total stopSet = 130 ↔ stopSet = true ∧ total ≠ 0) ∧
    (main_async_exit total stopSet = 0 ↔ stopSet = false ∨ total = 0) := by
  cases stopSet <;> rcases Nat.eq_zero_or_pos total with h | h <;>
    simp_all [main_async_exit]

/-- Claim C10: the pacing delay is concurrency / target_rps when
target_rps > 0 and 0 when target_rps = 0; in particular rps 10 with
concurrency 50 yields 5 seconds between consecutive probes of one
worker. -/
theorem per_request_delay_spec (concurrency : Nat) (rps : ℚ) :
    (0 < rps → per_request_delay concurrency rps = (concurrency : ℚ) / rps) ∧
    (rps = 0 → per_request_delay concurrency rps = 0) ∧
    per_request_delay 50 10 = 5 := by
  refine ⟨fun h => ?_, fun h => ?_, ?_⟩
  · rw [per_request_delay, if_pos h, max_eq_right]
    exact div_nonneg (Nat.cast_nonneg concurrency) h.le
  · simp [per_request_delay, h]
  · rw [per_request_delay, if_pos (by norm_num)]
    norm_num

theorem per_request_delay_spec_witness :
    per_request_delay 50 10 = (50 : ℚ) / 10 :=
  (per_request_delay_spec 50 10).1 (by norm_num)

/-- Claim C1: probe declares the domain alive iff some scheme attempt
yields a 2xx status, trying https first; a raised scheme attempt falls
through to the next scheme, and a 2xx https completion makes the result
independent of anything the environment does at other URLs. -/
theorem probe_alive_iff (env : Env) (n : Nat) (d : String) :
    ((probe env n d).2 = true ↔
      (ok2xx (get_with_ttfb (env ("https://" ++ d)) n) ∨
        (fetchFails (get_with_ttfb (env ("https://" ++ d)) n) ∧
          ok2xx (get_with_ttfb (env ("http://" ++ d)) n)))) ∧
    (∀ e, get_with_ttfb (env ("https://" ++ d)) n = Except.error e →
      probe env n d = probeLoop env n d ["http://"]) ∧
    (∀ env2 : Env, env2 ("https://" ++ d) = env ("https://" ++ d) →
      ok2xx (get_with_ttfb (env ("https://" ++ d)) n) →
      probe env2 n d = probe env n d) := by
  refine ⟨?_, ?_, ?_⟩
  · rcases h1 : get_with_ttfb (env ("https://" ++ d)) n with e1 | v1
    · rcases h2 : get_with_ttfb (env ("http://" ++ d)) n with e2 | v2
      · simp [probe, probeLoop, schemes, h1, h2, ok2xx_error,
          fetchFails_error]
      · obtain ⟨s, th, tb⟩ := v2
        simp [probe, probeLoop, schemes, h1, h2, ok2xx_error,
          fetchFails_error, ok2xx_ok, decide_eq_true_eq]
    · obtain ⟨s, th, tb⟩ := v1
      simp [probe, probeLoop, schemes, h1, not_fetchFails_ok, ok2xx_ok,
        decide_eq_true_eq]
  · intro e h1
    simp [probe, probeLoop, schemes, h1]
  · intro env2 henv2 hok
    rcases h1 : get_with_ttfb (env ("https://" ++ d)) n with e1 | v1
    · rw [h1] at hok
      exact absurd hok (ok2xx_error e1)
    · obtain ⟨s, th, tb⟩ := v1
      have h2 : get_with_ttfb (env2 ("https://" ++ d)) n =
          Except.ok (s, th, tb) := by rw [henv2, h1]
      simp [probe, probeLoop, schemes, h1, h2]

theorem probe_alive_iff_witness :
    (probe (fun _ => Except.ok ⟨200, 1, []⟩) 0 "x.com").2 = true :=
  (probe_alive_iff (fun _ => Except.ok ⟨200, 1, []⟩) 0 "x.com").1.mpr
    (Or.inl ⟨200, round3 1, round3 0, rfl, by norm_num, by norm_num⟩)

/-- Claim C2: probe takes its answer from the first scheme attempt that
completes without raising, whatever its status: a completed https fetch
with any status fixes the result (a non-2xx status gives alive = false
with the http URL never attempted), and the http scheme is reached only
when the https attempt raises. -/
theorem probe_first_completion (env : Env) (n : Nat) (d : String)
    (s : Nat) (th tb : ℚ)
    (h : get_with_ttfb (env ("https://" ++ d)) n = Except.ok (s, th, tb)) :
    probe env n d = (d, decide (200 ≤ s ∧ s < 300)) ∧
    (¬ (200 ≤ s ∧ s < 300) → probe env n d = (d, false)) ∧
    (∀ env2 : Env, env2 ("https://" ++ d) = env ("https://" ++ d) →
      probe env2 n d = probe env n d) := by
  have hmain : probe env n d = (d, decide (200 ≤ s ∧ s < 300)) := by
    simp [probe, probeLoop, schemes, h]
  refine ⟨hmain, fun hnot => ?_, fun env2 henv2 => ?_⟩
  · rw [hmain]
    simp [hnot]
  · have h2 : get_with_ttfb (env2 ("https://" ++ d)) n =
        Except.ok (s, th, tb) := by rw [henv2, h]
    have hmain2 : probe env2 n d = (d, decide (200 ≤ s ∧ s < 300)) := by
      simp [probe, probeLoop, schemes, h2]
    rw [hmain2, hmain]

theorem probe_first_completion_witness :
    probe (fun _ => Except.ok ⟨404, 1, []⟩) 0 "x.com" = ("x.com", false) :=
  (probe_first_completion (fun _ => Except.ok ⟨404, 1, []⟩) 0 "x.com"
    404 (round3 1) (round3 0) rfl).2.1 (by omega)

/-- Claim C8: when the stop flag is observed set after a domain was
popped but before probing, the worker pushes the domain back (at the
queue tail) and exits: the domain is not probed (the outcome is the
same for every prober), the done and alive counters are untouched, the
domain is still in the queue, and done + remaining is preserved. -/
theorem worker_pushback (probeA probeB : String → Bool) (s : WState)
    (d : String) (rest : List String) (hq : s.queue = d :: rest) :
    workerStep probeA false false true s =
      WorkerOut.exited
        { queue := rest ++ [d], done := s.done, alive := s.alive,
          activos := s.activos } ∧
    workerStep probeA false false true s =
      workerStep probeB false false true s ∧
    d ∈ rest ++ [d] ∧
    s.done + (rest ++ [d]).length = s.done + s.queue.length := by
  refine ⟨?_, ?_, ?_, ?_⟩
  · simp [workerStep, hq]
  · simp [workerStep, hq]
  · simp
  · simp [hq]

lemma specUniqueFirst_sublist (l : List String) :
    List.Sublist (specUniqueFirst l) l := by
  induction l with
  | nil => simp [specUniqueFirst]
  | cons d rest ih =>
    exact List.Sublist.cons₂ d ((List.filter_sublist (specUniqueFirst rest)).trans ih)

lemma mem_specUniqueFirst (x : String) (l : List String) :
    x ∈ specUniqueFirst l ↔ x ∈ l := by
  induction l with
  | nil => simp [specUniqueFirst]
  | cons d rest ih =>
    by_cases hx : x = d
    · subst hx
      simp [specUniqueFirst]
    · simp [specUniqueFirst, List.mem_filter, hx, ih]

lemma specUniqueFirst_nodup (l : List String) : (specUniqueFirst l).Nodup := by
  induction l with
  | nil => simp [specUniqueFirst]
  | cons d rest ih =>
    rw [specUniqueFirst, List.nodup_cons]
    refine ⟨fun hmem => ?_, ih.filter _⟩
    have := (List.mem_filter.mp hmem).2
    simp at this

lemma dedupFirst_eq (l : List String) : ∀ seen : List String,
    dedupFirst seen l =
      (specUniqueFirst l).filter (fun x => decide (x ∉ seen)) := by
  induction l with
  | nil => intro seen; rfl
  | cons d rest ih =>
    intro seen
    by_cases hd : d ∈ seen
    · rw [dedupFirst, if_pos hd, ih seen, specUniqueFirst,
        List.filter_cons_of_neg (by simp [hd]), List.filter_filter]
      apply List.filter_congr
      intro x _
      by_cases hx : x ∈ seen
      · simp [hx]
      · have hxd : x ≠ d := fun h => hx (h ▸ hd)
        simp [hx, hxd]
    · rw [dedupFirst, if_neg hd, ih (d :: seen), specUniqueFirst,
        List.filter_cons_of_pos (by simp [hd]), List.filter_filter]
      apply congrArg (List.cons d)
      apply List.filter_congr
      intro x _
      by_cases hx1 : x = d
      · simp [hx1]
      · by_cases hx2 : x ∈ seen <;> simp [hx1, hx2]

/-- Claim C3: the domain list built from the input file is exactly the
first-occurrence deduplication of the stripped non-empty lines: no
duplicates, a subsequence of the stripped non-empty lines (original
order kept), the same members, and on the spec example the result is
[a.com, b.com] with total 2. -/
theorem loadDomains_spec (lines : List String) :
    loadDomains lines = specUniqueFirst (nonEmptyLines lines) ∧
    (loadDomains lines).Nodup ∧
    List.Sublist (loadDomains lines) (nonEmptyLines lines) ∧
    (∀ d, d ∈ loadDomains lines ↔ d ∈ nonEmptyLines lines) ∧
    loadDomains ["a.com", "a.com", "", "b.com"] = ["a.com", "b.com"] ∧
    (loadDomains ["a.com", "a.com", "", "b.com"]).length = 2 := by
  have he : loadDomains lines = specUniqueFirst (nonEmptyLines lines) := by
    rw [loadDomains, dedupFirst_eq]
    exact List.filter_eq_self.mpr (fun a _ => by simp)
  refine ⟨he, ?_, ?_, ?_, by decide, by decide⟩
  · rw [he]
    exact specUniqueFirst_nodup _
  · rw [he]
    exact specUniqueFirst_sublist _
  · intro d
    rw [he]
    exact mem_specUniqueFirst d _

theorem worker_pushback_witness :
    workerStep (fun _ => true) false false true
        ⟨["a.com", "b.com"], 3, 1, ["x.com"]⟩ =
      WorkerOut.exited ⟨["b.com", "a.com"], 3, 1, ["x.com"]⟩ :=
  (worker_pushback (fun _ => true) (fun _ => false)
    ⟨["a.com", "b.com"], 3, 1, ["x.com"]⟩ "a.com" ["b.com"] rfl).1

end DomChecker
